import Mathlib

/-!
# Verification of the h5forest modal HDF5 tree explorer

Shallow embedding of the h5forest application core: the lazily-materialized
tree-text model, the modal keybinding state machine, the one-shot input
capture operation, the background cursor-poll loop, and the command-line
entry point.  The embedding follows `src/h5forest/h5_forest.py` and
`src/h5forest/bindings/tree_bindings.py`; the `Tree`/`Node` layer
(`h5forest/tree.py`) is not among the sources and is modelled from the
specification where needed.
-/

namespace H5Forest

/-- One node of the HDF5 hierarchy.
Modelled from the spec: the `Node` class of `h5forest.tree` is not among the
source files; fields follow spec sections 3 and 4.1 (path, kind, lazy
children, `hasChildren`, fixed depth, expansion flag).  Child nodes are
referred to by index into the tree's node arena. -/
structure NodeData where
  name : String
  path : String
  isDataset : Bool
  hasChildren : Bool
  depth : Nat
  isExpanded : Bool
  children : Option (List Nat)
deriving DecidableEq

/-- The external HDF5 reader interface (spec section 6): child enumeration
returns `(name, isDataset, hasChildren)` triples; value/metadata/attribute
requests return display strings. -/
structure Reader where
  listChildren : String → List (String × Bool × Bool)
  getValues : String → String
  getValuesRange : String → Int → Int → String
  getMeta : String → String
  getAttrs : String → String

/-- Modelled from the spec: the `TreeText` state of `h5forest.tree` (spec
section 3): an arena of nodes, the `lineIndex` mapping display row to node id,
and the cached total character count `length`, kept in sync incrementally. -/
structure TreeState where
  nodes : List NodeData
  lineIndex : List Nat
  length : Nat
deriving DecidableEq

/-- Modelled from the spec: render one display line for a node — indentation
proportional to depth, an expand/collapse glyph for containers, the name. -/
def renderLine (n : NodeData) : String :=
  String.mk (List.replicate (2 * n.depth) ' ') ++
    (if n.isDataset then "" else "> ") ++ n.name

/-- The display line for node id `i` of the arena `ns`, if the id is valid. -/
def lineOf (ns : List NodeData) (i : Nat) : Option String :=
  ns[i]?.map renderLine

/-- The lines of the displayed buffer, one per visible node (spec section 3:
`lineIndex` is parallel to the buffer's lines). -/
def bufferLines (t : TreeState) : List String :=
  t.lineIndex.filterMap (lineOf t.nodes)

/-- The total splice footprint of a list of lines: each line plus the
newline that joins it to its neighbour. -/
def lineTotal (ls : List String) : Nat :=
  (ls.map (fun l => l.length + 1)).sum

/-- Join display lines with newlines into the single buffer text. -/
def joinLines : List String → String
  | [] => ""
  | [l] => l
  | l :: ls => l ++ "\n" ++ joinLines ls

/-- The full displayed tree text (the source's `tree.tree_text`). -/
def bufferText (t : TreeState) : String :=
  joinLines (bufferLines t)

/-- `totalLength()` of the spec (section 4.2): the character count of the
displayed buffer. -/
def totalLength (t : TreeState) : Nat :=
  (bufferText t).length

/-- The source's `tree.tree_text_split`: the buffer split at newlines, which
by the one-line-per-node invariant is exactly the per-node line list. -/
def tree_text_split (t : TreeState) : List String :=
  bufferLines t

/-- The source's `tree.height`: the number of display rows. -/
def treeHeight (t : TreeState) : Nat :=
  (tree_text_split t).length

/-- The depth of the node with arena id `i` (0 for an invalid id). -/
def nodeDepth (t : TreeState) (i : Nat) : Nat :=
  (t.nodes[i]?.map NodeData.depth).getD 0

/-- The child ids and freshly created child nodes used when expanding node
`nid` of `t`: the cached list if the node was expanded before, otherwise one
new node per child reported by the reader, appended to the arena.
Modelled from the spec (section 4.1 `expand`): cache hit returns the cached
children, miss enumerates via the reader with `depth = parent.depth + 1`. -/
def expandedChildren (r : Reader) (t : TreeState) (n : NodeData) :
    List Nat × List NodeData :=
  match n.children with
  | some cids => (cids, [])
  | none =>
      let specs := r.listChildren n.path
      let newNodes := specs.map (fun c =>
        { name := c.1, path := n.path ++ "/" ++ c.1, isDataset := c.2.1,
          hasChildren := c.2.2, depth := n.depth + 1, isExpanded := false,
          children := none : NodeData })
      ((List.range specs.length).map (· + t.nodes.length), newNodes)

/-- Modelled from the spec: `Tree.update_tree_text` — expand the node on
display row `row` (spec section 4.2 `expandNode`): splice the child lines
immediately after `row` into `lineIndex`, mark the node expanded, and bump
the cached `length` by the inserted character count.  Expanding a dataset, a
childless node, or an already-expanded node is a no-op (idempotence policy,
spec section 4.2). -/
def update_tree_text (r : Reader) (t : TreeState) (row : Nat) : TreeState :=
  match t.lineIndex[row]? with
  | none => t
  | some nid =>
    match t.nodes[nid]? with
    | none => t
    | some n =>
      if n.isDataset || !n.hasChildren || n.isExpanded then t
      else
        let cn := expandedChildren r t n
        let nodes' := (t.nodes ++ cn.2).set nid
          { n with isExpanded := true, children := some cn.1 }
        { nodes := nodes',
          lineIndex :=
            t.lineIndex.take (row + 1) ++ cn.1 ++ t.lineIndex.drop (row + 1),
          length := t.length + lineTotal (cn.1.filterMap (lineOf nodes')) }

/-- Modelled from the spec: `Tree.close_node` — collapse the node on display
row `row` (spec section 4.2 `collapseNode`): remove the contiguous descendant
range (rows following `row` while their depth exceeds the node's), mark the
node collapsed, and subtract the removed character count from `length`.
Children stay cached on the node.  Collapsing an already-collapsed node is a
no-op. -/
def close_node (t : TreeState) (row : Nat) : TreeState :=
  match t.lineIndex[row]? with
  | none => t
  | some nid =>
    match t.nodes[nid]? with
    | none => t
    | some n =>
      if !n.isExpanded then t
      else
        let rest := t.lineIndex.drop (row + 1)
        let removed := rest.takeWhile (fun i => n.depth < nodeDepth t i)
        let kept := rest.dropWhile (fun i => n.depth < nodeDepth t i)
        { nodes := t.nodes.set nid { n with isExpanded := false },
          lineIndex := t.lineIndex.take (row + 1) ++ kept,
          length := t.length - lineTotal (removed.filterMap (lineOf t.nodes)) }

/-- Modelled from the spec: the initial tree holds only the (collapsed) root
(spec section 4.2 `initialize`). -/
def initTree (root : NodeData) : TreeState :=
  { nodes := [root], lineIndex := [0], length := (renderLine root).length }

/-- The source's `Tree.get_current_node(row)`: `lineIndex[row]` resolved in
the arena; `none` models the `IndexError` for an out-of-range row. -/
def get_current_node (t : TreeState) (row : Nat) : Option (Nat × NodeData) :=
  match t.lineIndex[row]? with
  | none => none
  | some nid => t.nodes[nid]?.map (fun n => (nid, n))

/-- Every display row refers to a valid arena id. -/
def validIds (t : TreeState) : Prop :=
  ∀ i ∈ t.lineIndex, i < t.nodes.length

/-- Every cached child list refers to valid arena ids. -/
def validChildren (t : TreeState) : Prop :=
  ∀ n ∈ t.nodes, ∀ c ∈ n.children.getD [], c < t.nodes.length

/-- The TreeText representation invariant: valid row ids, valid cached
children, a never-empty display (the root row persists), and the cached
`length` in sync with the joined buffer (spec section 3: `length` is the
total character count, maintained across every splice). -/
def TreeInv (t : TreeState) : Prop :=
  validIds t ∧ validChildren t ∧ t.lineIndex ≠ [] ∧
    t.length + 1 = lineTotal (bufferLines t)

/-- The tree states reachable from a freshly initialised root by any
sequence of expand/collapse edits (the edits the Enter handler performs). -/
inductive Reachable (r : Reader) : TreeState → Prop where
  | init (root : NodeData) (h : root.children = none) :
      Reachable r (initTree root)
  | expand {t : TreeState} (row : Nat) :
      Reachable r t → Reachable r (update_tree_text r t row)
  | collapse {t : TreeState} (row : Nat) :
      Reachable r t → Reachable r (close_node t row)

/-! ## User-input parsing (the range callback's use of `str.split` / `int`) -/

/-- Python's `text.split("-")`: split a character list at every dash;
adjacent dashes and an empty input yield empty fields, and the result is
never empty. -/
def splitDash : List Char → List (List Char)
  | [] => [[]]
  | c :: rest =>
    let r := splitDash rest
    if c = '-' then [] :: r
    else
      match r with
      | [] => [[c]]
      | g :: gs => (c :: g) :: gs

/-- Python's `str.strip()`: drop whitespace from both ends. -/
def pyStrip (cs : List Char) : List Char :=
  ((cs.dropWhile Char.isWhitespace).reverse.dropWhile Char.isWhitespace).reverse

/-- The numeric value of a digit list. -/
def digitsVal (cs : List Char) : Nat :=
  cs.foldl (fun a c => 10 * a + (c.toNat - '0'.toNat)) 0

/-- Python's `int(s)` on a character list: optional surrounding whitespace,
an optional sign, then a nonempty digit run; `none` models `ValueError`. -/
def pyInt (cs : List Char) : Option Int :=
  match pyStrip cs with
  | [] => none
  | '+' :: rest =>
      if rest ≠ [] ∧ rest.all Char.isDigit then some (digitsVal rest) else none
  | '-' :: rest =>
      if rest ≠ [] ∧ rest.all Char.isDigit then some (-(digitsVal rest : Int))
      else none
  | cs' =>
      if cs'.all Char.isDigit then some (digitsVal cs') else none

/-- The two exceptions the range callback can raise while parsing:
`ValueError` from `int(...)` (caught by the handler) and `IndexError` from
`string_values[1]` on a dash-free input (uncaught in the source). -/
inductive ParseFail where
  | valueError
  | indexError
deriving DecidableEq

/-- The parse performed by `values_in_range_callback`
(`h5_forest.py` lines 368-375): split the captured text on `-`, strip each
field, convert field 0 then field 1 with `int`, in the source's evaluation
order (`int(string_values[0])` before `string_values[1]` is subscripted). -/
def parseRange (input : String) : Except ParseFail (Int × Int) :=
  let parts := (splitDash input.toList).map pyStrip
  match parts[0]? with
  | none => .error .indexError
  | some p0 =>
    match pyInt p0 with
    | none => .error .valueError
    | some a =>
      match parts[1]? with
      | none => .error .indexError
      | some p1 =>
        match pyInt p1 with
        | none => .error .valueError
        | some b => .ok (a, b)

/-! ## The application state and key handlers (`h5_forest.py`) -/

/-- The panes focus can rest on (the ones the handlers touch). -/
inductive FocusArea where
  | treeContent
  | miniBufferContent
deriving DecidableEq

/-- The one-shot callbacks handed to `H5Forest.input`: the range-values
callback captures the node id it was invoked on. -/
inductive Callback where
  | valuesInRange (nid : Nat)
deriving DecidableEq

/-- The `filter=Condition(...)` predicates attached to the keybindings. -/
inductive FilterTag where
  | always
  | normalMode
  | jumpMode
  | datasetMode
  | miniFocus
deriving DecidableEq

/-- The handler a registered keybinding runs (one tag per `@self.kb.add`
function of the source, plus the dynamically added `on_enter`). -/
inductive HandlerTag where
  | jumpLeader
  | datasetLeader
  | windowLeader
  | exitLeader
  | exitApp
  | otherExitApp
  | expandCollapse
  | showValues
  | showValuesRange
  | closeValues
  | jumpToTop
  | jumpToBottom
  | onEnter (cb : Callback)
deriving DecidableEq

/-- One entry of the `KeyBindings` registry: key, gating filter, handler. -/
structure KBEntry where
  key : String
  filter : FilterTag
  handler : HandlerTag
deriving DecidableEq

/-- The mutable state of the `H5Forest` application object: the tree, the
mode flags, the key-binding registry, the text panes, the tree document
(text plus absolute cursor offset), the poll loop's `prev_row`, the staged
`user_input`, and the focused pane. -/
structure AppState where
  tree : TreeState
  flag_values_visible : Bool
  flag_normal_mode : Bool
  flag_jump_mode : Bool
  flag_dataset_mode : Bool
  flag_window_mode : Bool
  kb : List KBEntry
  value_title : String
  doc_text : String
  doc_cursor : Nat
  metadata_text : String
  attributes_text : String
  values_text : String
  mini_buffer_text : String
  input_buffer_text : String
  prev_row : Option Nat
  user_input : Option String
  focus : FocusArea
  exited : Bool
deriving DecidableEq

/-- `H5Forest.current_row`: the cursor row of the tree document — the number
of newlines before the cursor offset. -/
def currentRow (s : AppState) : Nat :=
  ((s.doc_text.toList.take s.doc_cursor).filter (fun c => c = '\n')).length

/-- `H5Forest.print`: overwrite the mini buffer with a one-line message. -/
def appPrint (s : AppState) (msg : String) : AppState :=
  { s with mini_buffer_text := msg }

/-- `H5Forest.set_cursor_position`: replace the tree document wholesale with
the given text and cursor offset. -/
def set_cursor_position (s : AppState) (text : String) (pos : Nat) : AppState :=
  { s with doc_text := text, doc_cursor := pos }

/-- `H5Forest.default_focus`: focus the tree pane. -/
def default_focus (s : AppState) : AppState :=
  { s with focus := .treeContent }

/-- `H5Forest.return_to_normal_mode` (`h5_forest.py` lines 228-233). -/
def return_to_normal_mode (s : AppState) : AppState :=
  { s with flag_normal_mode := true, flag_jump_mode := false,
           flag_dataset_mode := false, flag_window_mode := false }

/-- The `j` leader handler: leave normal mode, enter jump mode. -/
def jump_leader_mode (s : AppState) : AppState :=
  { s with flag_normal_mode := false, flag_jump_mode := true }

/-- The `d` leader handler: leave normal mode, enter dataset mode. -/
def dataset_leader_mode (s : AppState) : AppState :=
  { s with flag_normal_mode := false, flag_dataset_mode := true }

/-- The `w` leader handler: leave normal mode, enter window mode. -/
def window_leader_mode (s : AppState) : AppState :=
  { s with flag_normal_mode := false, flag_window_mode := true }

/-- The `escape` handler (`h5_forest.py` lines 256-260). -/
def exit_leader_mode (s : AppState) : AppState :=
  return_to_normal_mode s

/-- The `q`/`c-q` handlers: exit the application. -/
def exit_app (s : AppState) : AppState :=
  { s with exited := true }

/-- The Enter handler `expand_collapse_node` (`h5_forest.py` lines 279-315,
identical logic in `tree_bindings.py` lines 63-95): resolve the node under
the cursor; datasets and childless nodes only get a message; otherwise close
an expanded node or expand a collapsed one, then reset the cursor to the
pre-edit offset.  An out-of-range row raises `IndexError` in the source
before any mutation; that is modelled as the unchanged state. -/
def expand_collapse_node (r : Reader) (s : AppState) : AppState :=
  let row := currentRow s
  let pos := s.doc_cursor
  match get_current_node s.tree row with
  | none => s
  | some p =>
    if p.2.isDataset then appPrint s (p.2.path ++ " is not a Group")
    else if !p.2.hasChildren then appPrint s (p.2.path ++ " has no children")
    else
      let t' := if p.2.isExpanded then close_node s.tree row
                else update_tree_text r s.tree row
      set_cursor_position { s with tree := t' } (bufferText t') pos

/-- The dataset-mode `v` handler `show_values` (`h5_forest.py` lines
320-352): groups only get a message; an empty value string returns early
with no effect; otherwise the values pane is populated, its title updated,
the visibility flag set, and normal mode restored. -/
def show_values (r : Reader) (s : AppState) : AppState :=
  match get_current_node s.tree (currentRow s) with
  | none => s
  | some p =>
    if !p.2.isDataset then appPrint s (p.2.path ++ " is not a Dataset")
    else
      let text := r.getValues p.2.path
      if text.length = 0 then s
      else
        return_to_normal_mode
          { s with value_title := "Values: " ++ p.2.path,
                   values_text := text, flag_values_visible := true }

/-- `H5Forest.input` (`h5_forest.py` lines 629-677): stage for input by
clearing `user_input`, showing the prompt, focusing the mini buffer, and
appending a new Enter binding (gated on mini-buffer focus) to the registry.
The source never removes this binding. -/
def input_op (s : AppState) (prompt : String) (cb : Callback) : AppState :=
  { s with user_input := none, input_buffer_text := prompt,
           mini_buffer_text := "", focus := .miniBufferContent,
           kb := s.kb ++ [⟨"enter", .miniFocus, .onEnter cb⟩] }

/-- The body of `values_in_range_callback` (`h5_forest.py` lines 365-408):
parse the captured text; on `ValueError` report the invalid input, restore
tree focus and normal mode; on the source's uncaught `IndexError` no further
mutation happens (modelled as the state at the raise point); on success
refocus the tree, fetch the ranged value text, and populate the values pane
unless the text is empty. -/
def run_callback (r : Reader) (cb : Callback) (s : AppState) : AppState :=
  match cb with
  | .valuesInRange nid =>
    let ui := s.user_input.getD ""
    match parseRange ui with
    | .error .valueError =>
        return_to_normal_mode (default_focus (appPrint s
          ("Invalid input! Input must be a integers separated by -, not ("
            ++ ui ++ ")")))
    | .error .indexError => s
    | .ok ab =>
        let s := default_focus s
        match s.tree.nodes[nid]? with
        | none => s
        | some n =>
          let text := r.getValuesRange n.path ab.1 ab.2
          if text.length = 0 then s
          else
            return_to_normal_mode
              { s with value_title := "Values: " ++ n.path,
                       values_text := text, flag_values_visible := true }

/-- The temporary `on_enter` handler installed by `H5Forest.input`
(`h5_forest.py` lines 656-666): capture the mini-buffer text into
`user_input`, clear both buffers, then run the stored callback. -/
def on_enter_handler (r : Reader) (cb : Callback) (s : AppState) : AppState :=
  run_callback r cb
    { s with user_input := some s.mini_buffer_text,
             input_buffer_text := "", mini_buffer_text := "" }

/-- The dataset-mode `V` handler `show_values_in_range` (`h5_forest.py`
lines 354-414): groups only get a message; otherwise prompt for an index
range, handing `input` the range callback closed over the node. -/
def show_values_in_range (s : AppState) : AppState :=
  match get_current_node s.tree (currentRow s) with
  | none => s
  | some p =>
    if !p.2.isDataset then appPrint s (p.2.path ++ " is not a Dataset")
    else input_op s "Enter the index range (seperated by -):"
      (.valuesInRange p.1)

/-- The dataset-mode `c` handler `close_values`: hide and clear the values
pane, then return to normal mode. -/
def close_values (s : AppState) : AppState :=
  return_to_normal_mode { s with flag_values_visible := false, values_text := "" }

/-- The jump-mode `t` handler: cursor to offset 0, back to normal mode. -/
def jump_to_top (s : AppState) : AppState :=
  return_to_normal_mode (set_cursor_position s (bufferText s.tree) 0)

/-- The jump-mode `b` handler: cursor to `tree.length`, back to normal
mode. -/
def jump_to_bottom (s : AppState) : AppState :=
  return_to_normal_mode (set_cursor_position s (bufferText s.tree) s.tree.length)

/-- Evaluate a binding's gating filter against the current state. -/
def evalFilter (s : AppState) : FilterTag → Bool
  | .always => true
  | .normalMode => s.flag_normal_mode
  | .jumpMode => s.flag_jump_mode
  | .datasetMode => s.flag_dataset_mode
  | .miniFocus => s.focus = .miniBufferContent

/-- Run the handler a binding names. -/
def runHandler (r : Reader) (h : HandlerTag) (s : AppState) : AppState :=
  match h with
  | .jumpLeader => jump_leader_mode s
  | .datasetLeader => dataset_leader_mode s
  | .windowLeader => window_leader_mode s
  | .exitLeader => exit_leader_mode s
  | .exitApp => exit_app s
  | .otherExitApp => exit_app s
  | .expandCollapse => expand_collapse_node r s
  | .showValues => show_values r s
  | .showValuesRange => show_values_in_range s
  | .closeValues => close_values s
  | .jumpToTop => jump_to_top s
  | .jumpToBottom => jump_to_bottom s
  | .onEnter cb => on_enter_handler r cb s

/-- The registry built by `__init__` via `_init_leader_bindings`,
`_init_app_bindings`, `_init_dataset_bindings` and `_init_jump_bindings`,
in registration order. -/
def initKB : List KBEntry :=
  [ ⟨"j", .normalMode, .jumpLeader⟩,
    ⟨"d", .normalMode, .datasetLeader⟩,
    ⟨"w", .normalMode, .windowLeader⟩,
    ⟨"escape", .always, .exitLeader⟩,
    ⟨"q", .always, .exitApp⟩,
    ⟨"c-q", .always, .otherExitApp⟩,
    ⟨"enter", .always, .expandCollapse⟩,
    ⟨"v", .datasetMode, .showValues⟩,
    ⟨"V", .datasetMode, .showValuesRange⟩,
    ⟨"c", .datasetMode, .closeValues⟩,
    ⟨"t", .jumpMode, .jumpToTop⟩,
    ⟨"b", .jumpMode, .jumpToBottom⟩ ]

/-- Key dispatch: of the registered bindings for this key whose filter is
satisfied, the last registered one runs (prompt_toolkit's rule); with no
active binding the key is ignored. -/
def dispatch (r : Reader) (s : AppState) (key : String) : AppState :=
  match (s.kb.filter (fun e => e.key = key ∧ evalFilter s e.filter)).getLast? with
  | none => s
  | some e => runHandler r e.handler s

/-- The application state right after `H5Forest.__init__`: normal mode, the
static registry, the initial pane texts, cursor at offset 0, focus on the
tree. -/
def initState (root : NodeData) : AppState :=
  { tree := initTree root,
    flag_values_visible := false,
    flag_normal_mode := true,
    flag_jump_mode := false,
    flag_dataset_mode := false,
    flag_window_mode := false,
    kb := initKB,
    value_title := "Values",
    doc_text := bufferText (initTree root),
    doc_cursor := 0,
    metadata_text := "Metadata details here...",
    attributes_text := "Attributes here...",
    values_text := "Values here...",
    mini_buffer_text := "Welcome to h5forest!",
    input_buffer_text := "",
    prev_row := none,
    user_input := none,
    focus := .treeContent,
    exited := false }

/-- Fold a sequence of key presses through dispatch from the initial
state. -/
def runKeys (r : Reader) (root : NodeData) (keys : List String) : AppState :=
  keys.foldl (dispatch r) (initState root)

/-! ## The background poll loop (`cursor_moved_action`), `main`, and the
move-down clamp -/

/-- The operations one iteration of the poll loop can perform.  The
constructors enumerate what the loop body could do; `sleepBriefly` and
`yieldCPU` are included so their absence from an iteration's trace is
expressible. -/
inductive LoopEffect where
  | sleepBriefly
  | yieldCPU
  | setPanes
  | clampCursorAndClearPanes
  | invalidate
deriving DecidableEq

/-- One iteration of `H5Forest.cursor_moved_action`'s `while True` loop
(`h5_forest.py` lines 512-533), returning the updated state and the trace of
operations performed.  When the current row equals `prev_row` the body is a
bare `continue`: no update, no invalidate, and no sleep or yield of any
kind.  Otherwise `prev_row` is updated and the node lookup either refreshes
the metadata/attribute panes or, on `IndexError`, resets the cursor to
offset `tree.length` and clears both panes. -/
def cursor_moved_iter (r : Reader) (s : AppState) : AppState × List LoopEffect :=
  let row := currentRow s
  if some row = s.prev_row then (s, [])
  else
    let s1 := { s with prev_row := some row }
    match get_current_node s1.tree row with
    | some p =>
        ({ s1 with metadata_text := r.getMeta p.2.path,
                   attributes_text := r.getAttrs p.2.path },
         [.setPanes, .invalidate])
    | none =>
        ({ (set_cursor_position s1 (bufferText s1.tree) s1.tree.length) with
             metadata_text := "", attributes_text := "" },
         [.clampCursorAndClearPanes, .invalidate])

/-- `offsetOfRowStart` of the spec (section 4.3): the absolute offset of the
start of display row `row` — the cumulative `lineLength + 1` of the rows
before it. -/
def rowStartOffset (lines : List String) (row : Nat) : Nat :=
  ((lines.take row).map (fun l => l.length + 1)).sum

/-- The offset of the start of the last valid display row. -/
def lastRowStart (t : TreeState) : Nat :=
  rowStartOffset (bufferLines t) ((bufferLines t).length - 1)

/-- How a run of `main` (`h5_forest.py` lines 694-714) starts: either the
usage error path (print a usage line, `sys.exit` with the given status) or a
normal launch on the extracted file path. -/
inductive MainStart where
  | usageExit (message : String) (status : Nat)
  | launched (filepath : String)
deriving DecidableEq

/-- The argument check at the top of `main`: any argument vector whose
length differs from 2 (program name plus one positional argument) prints the
usage line and exits with status 1; otherwise the application is launched on
`sys.argv[1]`. -/
def mainStart (argv : List String) : MainStart :=
  if argv.length ≠ 2 then
    .usageExit "Usage: h5forest /path/to/file.hdf5" 1
  else
    .launched (argv.getD 1 "")

/-- The clamp offset computed by `move_down_ten` (`tree_bindings.py` lines
48-58) when the cursor would overshoot:
`app.tree.length - len(app.tree.tree_text_split[app.tree.height - 1])`,
i.e. the cached total length minus the last display line's length, as a
Python integer (so a negative result is representable). -/
def move_down_clamp (t : TreeState) : Int :=
  (t.length : Int) -
    (((tree_text_split t).getD (treeHeight t - 1) "").length : Int)

/-! ## Concrete fixtures used by witnesses and counterexamples -/

/-- A root group with children, as `Tree.__init__` would create it. -/
def sampleRoot : NodeData :=
  { name := "root", path := "/", isDataset := false, hasChildren := true,
    depth := 0, isExpanded := false, children := none }

/-- A childless group (a legal HDF5 group with no members). -/
def cxRoot : NodeData :=
  { name := "g", path := "/g", isDataset := false, hasChildren := false,
    depth := 0, isExpanded := false, children := none }

/-- A small concrete reader: the root holds a sub-group `alpha` and a
dataset `beta`; value requests return fixed non-empty strings. -/
def sampleReader : Reader :=
  { listChildren := fun _ => [("alpha", false, true), ("beta", true, false)],
    getValues := fun _ => "0 1 2",
    getValuesRange := fun _ _ _ => "2 3 4",
    getMeta := fun _ => "meta",
    getAttrs := fun _ => "attrs" }

/-- A reader whose value requests come back empty (an empty dataset). -/
def emptyReader : Reader :=
  { sampleReader with getValues := fun _ => "",
                      getValuesRange := fun _ _ _ => "" }

/-- A state whose poll loop last observed the row the cursor is still on. -/
def idleState : AppState :=
  { initState sampleRoot with prev_row := some 0 }

/-- The number of Enter bindings in the registry. -/
def enterBindingCount (s : AppState) : Nat :=
  (s.kb.filter (fun e => e.key = "enter")).length

/-- The expanded sample tree: rows `[root, alpha, beta]`, `beta` a
dataset with arena id 2 on row 2. -/
def sampleTree : TreeState :=
  update_tree_text sampleReader (initTree sampleRoot) 0

/-- The dataset node `beta` as `expandedChildren` creates it. -/
def betaNode : NodeData :=
  { name := "beta", path := "//beta", isDataset := true, hasChildren := false,
    depth := 1, isExpanded := false, children := none }

/-- A state with the sample tree displayed and the cursor on the dataset
row (`beta`, row 2, offset 17). -/
def dsState : AppState :=
  { initState sampleRoot with
      tree := sampleTree,
      doc_text := bufferText sampleTree,
      doc_cursor := 17 }

/-- `dsState` with captured user input `"2-5"` staged. -/
def dsState2 : AppState :=
  { dsState with user_input := some "2-5" }

/-- A copy of `dsState` whose mini buffer holds `"2-5"`. -/
def inputStateA : AppState :=
  { dsState with mini_buffer_text := "2-5" }

/-- A copy of `dsState` whose mini buffer holds `"abc"`. -/
def inputStateB : AppState :=
  { dsState with mini_buffer_text := "abc" }

/-- A race state the spec describes: the displayed document still has four
rows and the cursor sits on row 3, while the tree has shrunk to three
rows — the node lookup for row 3 fails. -/
def pollCxState : AppState :=
  { initState sampleRoot with
      tree := sampleTree,
      doc_text := "a\nb\nc\nd",
      doc_cursor := 6 }

/-! ## Mode-flag and registry invariants -/

/-- Mode exclusivity, stated over the four flags of `__init__`: no two
sub-mode flags are simultaneously true, and the normal flag holds exactly
when every sub-mode flag is false. -/
def modeInv (s : AppState) : Prop :=
  (s.flag_jump_mode && s.flag_dataset_mode) = false ∧
  (s.flag_jump_mode && s.flag_window_mode) = false ∧
  (s.flag_dataset_mode && s.flag_window_mode) = false ∧
  s.flag_normal_mode =
    (!s.flag_jump_mode && !s.flag_dataset_mode && !s.flag_window_mode)

/-- An entry the running application may have appended to the static
registry: one of the temporary Enter bindings installed by `input`. -/
def goodExtra (e : KBEntry) : Prop :=
  e.key = "enter" ∧ e.filter = .miniFocus ∧ ∃ cb, e.handler = .onEnter cb

/-- Registry shape invariant: the registry is the static `__init__`
bindings followed by some temporary Enter bindings. -/
def kbInv (s : AppState) : Prop :=
  ∃ rest, s.kb = initKB ++ rest ∧ ∀ e ∈ rest, goodExtra e

theorem kb_expand_collapse (r : Reader) (s : AppState) :
    (expand_collapse_node r s).kb = s.kb := by
  unfold expand_collapse_node
  dsimp only
  repeat' split
  all_goals rfl

theorem kb_show_values (r : Reader) (s : AppState) :
    (show_values r s).kb = s.kb := by
  unfold show_values
  dsimp only
  repeat' split
  all_goals rfl

theorem kb_run_callback (r : Reader) (cb : Callback) (s : AppState) :
    (run_callback r cb s).kb = s.kb := by
  unfold run_callback
  dsimp only
  repeat' split
  all_goals rfl

theorem kb_on_enter (r : Reader) (cb : Callback) (s : AppState) :
    (on_enter_handler r cb s).kb = s.kb := by
  unfold on_enter_handler
  rw [kb_run_callback]

theorem runHandler_kb (r : Reader) (h : HandlerTag) (s : AppState) :
    ∃ extra, (runHandler r h s).kb = s.kb ++ extra ∧ ∀ e ∈ extra, goodExtra e := by
  cases h with
  | expandCollapse =>
      exact ⟨[], by simp [runHandler, kb_expand_collapse], by simp⟩
  | showValues =>
      exact ⟨[], by simp [runHandler, kb_show_values], by simp⟩
  | onEnter cb =>
      exact ⟨[], by simp [runHandler, kb_on_enter], by simp⟩
  | showValuesRange =>
      simp only [runHandler]
      unfold show_values_in_range
      split
      · exact ⟨[], by simp, by simp⟩
      next p _ =>
        split
        · exact ⟨[], by simp [appPrint], by simp⟩
        · exact ⟨[⟨"enter", .miniFocus, .onEnter (.valuesInRange p.1)⟩],
            by simp [input_op], by simp [goodExtra]⟩
  | jumpLeader =>
      exact ⟨[], by simp [runHandler, jump_leader_mode], by simp⟩
  | datasetLeader =>
      exact ⟨[], by simp [runHandler, dataset_leader_mode], by simp⟩
  | windowLeader =>
      exact ⟨[], by simp [runHandler, window_leader_mode], by simp⟩
  | exitLeader =>
      exact ⟨[], by simp [runHandler, exit_leader_mode, return_to_normal_mode],
        by simp⟩
  | exitApp => exact ⟨[], by simp [runHandler, exit_app], by simp⟩
  | otherExitApp => exact ⟨[], by simp [runHandler, exit_app], by simp⟩
  | closeValues =>
      exact ⟨[], by simp [runHandler, close_values, return_to_normal_mode],
        by simp⟩
  | jumpToTop =>
      exact ⟨[], by simp [runHandler, jump_to_top, return_to_normal_mode,
        set_cursor_position], by simp⟩
  | jumpToBottom =>
      exact ⟨[], by simp [runHandler, jump_to_bottom, return_to_normal_mode,
        set_cursor_position], by simp⟩

theorem dispatch_kbInv {s : AppState} (r : Reader) (k : String)
    (h : kbInv s) : kbInv (dispatch r s k) := by
  unfold dispatch
  split
  · exact h
  next e _ =>
    obtain ⟨rest, hkb, hrest⟩ := h
    obtain ⟨extra, hkb', hextra⟩ := runHandler_kb r e.handler s
    refine ⟨rest ++ extra, ?_, ?_⟩
    · rw [hkb', hkb, List.append_assoc]
    · intro x hx
      rcases List.mem_append.mp hx with hx | hx
      · exact hrest x hx
      · exact hextra x hx

theorem modeInv_return_to_normal (s : AppState) :
    modeInv (return_to_normal_mode s) := by
  simp [modeInv, return_to_normal_mode]

theorem modeInv_flags_eq {s s' : AppState}
    (hn : s'.flag_normal_mode = s.flag_normal_mode)
    (hj : s'.flag_jump_mode = s.flag_jump_mode)
    (hd : s'.flag_dataset_mode = s.flag_dataset_mode)
    (hw : s'.flag_window_mode = s.flag_window_mode)
    (h : modeInv s) : modeInv s' := by
  unfold modeInv at h ⊢
  rw [hn, hj, hd, hw]
  exact h

theorem modeInv_expand_collapse (r : Reader) {s : AppState} (h : modeInv s) :
    modeInv (expand_collapse_node r s) := by
  unfold expand_collapse_node
  dsimp only
  repeat' split
  all_goals exact modeInv_flags_eq rfl rfl rfl rfl h

theorem modeInv_show_values (r : Reader) {s : AppState} (h : modeInv s) :
    modeInv (show_values r s) := by
  unfold show_values
  dsimp only
  repeat' split
  · exact h
  · exact modeInv_flags_eq rfl rfl rfl rfl h
  · exact h
  · exact modeInv_return_to_normal _

theorem modeInv_show_values_in_range {s : AppState} (h : modeInv s) :
    modeInv (show_values_in_range s) := by
  unfold show_values_in_range
  repeat' split
  all_goals exact modeInv_flags_eq rfl rfl rfl rfl h

theorem modeInv_run_callback (r : Reader) (cb : Callback) {s : AppState}
    (h : modeInv s) : modeInv (run_callback r cb s) := by
  unfold run_callback
  dsimp only
  repeat' split
  · exact modeInv_return_to_normal _
  · exact h
  · exact modeInv_flags_eq rfl rfl rfl rfl h
  · exact modeInv_flags_eq rfl rfl rfl rfl h
  · exact modeInv_return_to_normal _

theorem modeInv_on_enter (r : Reader) (cb : Callback) {s : AppState}
    (h : modeInv s) : modeInv (on_enter_handler r cb s) := by
  unfold on_enter_handler
  exact modeInv_run_callback r cb (modeInv_flags_eq rfl rfl rfl rfl h)

theorem dispatch_modeInv {s : AppState} (r : Reader) (k : String)
    (hkb : kbInv s) (hm : modeInv s) : modeInv (dispatch r s k) := by
  unfold dispatch
  split
  · exact hm
  next e heq =>
    have hmem : e ∈ s.kb.filter
        (fun e => decide (e.key = k ∧ evalFilter s e.filter = true)) := by
      exact List.mem_of_getLast?_eq_some heq
    have hmem' := List.mem_filter.mp hmem
    have hact : e.key = k ∧ evalFilter s e.filter = true :=
      of_decide_eq_true hmem'.2
    obtain ⟨rest, hshape, hrest⟩ := hkb
    rw [hshape] at hmem'
    rcases List.mem_append.mp hmem'.1 with hin | hin
    · have : e = ⟨"j", .normalMode, .jumpLeader⟩ ∨
          e = ⟨"d", .normalMode, .datasetLeader⟩ ∨
          e = ⟨"w", .normalMode, .windowLeader⟩ ∨
          e = ⟨"escape", .always, .exitLeader⟩ ∨
          e = ⟨"q", .always, .exitApp⟩ ∨
          e = ⟨"c-q", .always, .otherExitApp⟩ ∨
          e = ⟨"enter", .always, .expandCollapse⟩ ∨
          e = ⟨"v", .datasetMode, .showValues⟩ ∨
          e = ⟨"V", .datasetMode, .showValuesRange⟩ ∨
          e = ⟨"c", .datasetMode, .closeValues⟩ ∨
          e = ⟨"t", .jumpMode, .jumpToTop⟩ ∨
          e = ⟨"b", .jumpMode, .jumpToBottom⟩ := by
        simpa [initKB] using hin
      obtain ⟨c1, c2, c3, c4⟩ := hm
      rcases this with rfl | rfl | rfl | rfl | rfl | rfl | rfl | rfl | rfl |
        rfl | rfl | rfl
      · have hn : s.flag_normal_mode = true := hact.2
        rw [hn] at c4
        obtain ⟨⟨hj, hd⟩, hw⟩ :
            (s.flag_jump_mode = false ∧ s.flag_dataset_mode = false) ∧
              s.flag_window_mode = false := by
          simpa using c4.symm
        simp [runHandler, jump_leader_mode, modeInv, hj, hd, hw]
      · have hn : s.flag_normal_mode = true := hact.2
        rw [hn] at c4
        obtain ⟨⟨hj, hd⟩, hw⟩ :
            (s.flag_jump_mode = false ∧ s.flag_dataset_mode = false) ∧
              s.flag_window_mode = false := by
          simpa using c4.symm
        simp [runHandler, dataset_leader_mode, modeInv, hj, hd, hw]
      · have hn : s.flag_normal_mode = true := hact.2
        rw [hn] at c4
        obtain ⟨⟨hj, hd⟩, hw⟩ :
            (s.flag_jump_mode = false ∧ s.flag_dataset_mode = false) ∧
              s.flag_window_mode = false := by
          simpa using c4.symm
        simp [runHandler, window_leader_mode, modeInv, hj, hd, hw]
      · exact modeInv_return_to_normal s
      · exact modeInv_flags_eq rfl rfl rfl rfl ⟨c1, c2, c3, c4⟩
      · exact modeInv_flags_eq rfl rfl rfl rfl ⟨c1, c2, c3, c4⟩
      · exact modeInv_expand_collapse r ⟨c1, c2, c3, c4⟩
      · exact modeInv_show_values r ⟨c1, c2, c3, c4⟩
      · exact modeInv_show_values_in_range ⟨c1, c2, c3, c4⟩
      · exact modeInv_return_to_normal _
      · exact modeInv_return_to_normal _
      · exact modeInv_return_to_normal _
    · obtain ⟨-, -, cb, hcb⟩ := hrest e hin
      rw [hcb]
      exact modeInv_on_enter r cb hm

theorem modeInv_initState (root : NodeData) : modeInv (initState root) := by
  simp [modeInv, initState]

theorem kbInv_initState (root : NodeData) : kbInv (initState root) :=
  ⟨[], by simp [initState], by simp⟩

theorem foldl_dispatch_inv (r : Reader) :
    ∀ (keys : List String) (s : AppState), modeInv s → kbInv s →
      modeInv (keys.foldl (dispatch r) s) ∧ kbInv (keys.foldl (dispatch r) s)
  | [], _s, hm, hk => ⟨hm, hk⟩
  | k :: keys, s, hm, hk =>
      foldl_dispatch_inv r keys (dispatch r s k)
        (dispatch_modeInv r k hk hm) (dispatch_kbInv r k hk)

/-! ## C1: mode exclusivity -/

/-- **C1** (confirmed): starting from the initial state (Normal active, all
sub-mode flags false), after any sequence of key-handler executions
(leader keys, escape, action keys, captured-input Enter handlers) at most
one of the Jump/Dataset/Window flags is true, and the Normal flag is true
iff every sub-mode flag is false. -/
theorem mode_exclusivity_after_any_keys (r : Reader) (root : NodeData)
    (keys : List String) : modeInv (runKeys r root keys) :=
  (foldl_dispatch_inv r keys (initState root) (modeInv_initState root)
    (kbInv_initState root)).1

/-! ## C5: escape always restores Normal mode -/

theorem dispatch_escape {s : AppState} (r : Reader) (hkb : kbInv s) :
    dispatch r s "escape" = exit_leader_mode s := by
  obtain ⟨rest, hshape, hrest⟩ := hkb
  unfold dispatch
  rw [hshape]
  rw [List.filter_append]
  have h1 : initKB.filter
      (fun e => decide (e.key = "escape" ∧ evalFilter s e.filter = true)) =
      [⟨"escape", .always, .exitLeader⟩] := by
    simp [initKB, evalFilter]
  have h2 : rest.filter
      (fun e => decide (e.key = "escape" ∧ evalFilter s e.filter = true)) =
      [] := by
    rw [List.filter_eq_nil_iff]
    intro e he
    obtain ⟨hk, -, -⟩ := hrest e he
    simp [hk]
  rw [h1, h2]
  simp [runHandler]

/-- **C5** (confirmed): pressing escape in any reachable mode state (any
combination of the flags produced by any key sequence) leaves the Normal
flag true and every sub-mode flag false. -/
theorem escape_always_restores_normal_mode (r : Reader) (root : NodeData)
    (keys : List String) :
    (dispatch r (runKeys r root keys) "escape").flag_normal_mode = true ∧
    (dispatch r (runKeys r root keys) "escape").flag_jump_mode = false ∧
    (dispatch r (runKeys r root keys) "escape").flag_dataset_mode = false ∧
    (dispatch r (runKeys r root keys) "escape").flag_window_mode = false := by
  have hkb := (foldl_dispatch_inv r keys (initState root)
    (modeInv_initState root) (kbInv_initState root)).2
  unfold runKeys
  rw [dispatch_escape r hkb]
  simp [exit_leader_mode, return_to_normal_mode]

/-! ## C8: command-line usage check -/

/-- **C8** (confirmed): an argument vector without exactly one positional
argument (program name plus path, so length 2) makes `main` print the usage
line and exit with the non-zero status 1; with exactly one positional
argument `main` does not take the usage path. -/
theorem main_usage_error_check (argv : List String) :
    (argv.length ≠ 2 →
      mainStart argv = .usageExit "Usage: h5forest /path/to/file.hdf5" 1 ∧
        (1 : Nat) ≠ 0) ∧
    (argv.length = 2 → mainStart argv = .launched (argv.getD 1 "")) := by
  constructor
  · intro h
    exact ⟨by simp [mainStart, h], one_ne_zero⟩
  · intro h
    simp [mainStart, h]

/-- Witness: `main_usage_error_check` evaluated on a zero-argument and a
one-argument command line. -/
theorem main_usage_error_check_witness :
    mainStart ["h5forest"] = .usageExit "Usage: h5forest /path/to/file.hdf5" 1 ∧
    mainStart ["h5forest", "file.h5"] = .launched "file.h5" :=
  ⟨((main_usage_error_check ["h5forest"]).1 (by decide)).1,
   (main_usage_error_check ["h5forest", "file.h5"]).2 rfl⟩

/-! ## C7: the poll loop busy-spins on unchanged rows -/

/-- **C7** (code bug): an iteration of the poll loop in which the observed
row equals the previously observed row is a bare `continue`: the state is
untouched and the performed-operation trace is empty — in particular it
contains no sleep and no yield, contradicting the claim that the loop
sleeps or yields briefly between unchanged-row checks. -/
theorem poll_loop_unchanged_row_never_sleeps (r : Reader) (s : AppState)
    (h : some (currentRow s) = s.prev_row) :
    cursor_moved_iter r s = (s, []) ∧
    LoopEffect.sleepBriefly ∉ (cursor_moved_iter r s).2 ∧
    LoopEffect.yieldCPU ∉ (cursor_moved_iter r s).2 := by
  have heq : cursor_moved_iter r s = (s, []) := by
    unfold cursor_moved_iter
    simp [h]
  refine ⟨heq, ?_, ?_⟩ <;> rw [heq] <;> simp

/-- Witness: `poll_loop_unchanged_row_never_sleeps` at the concrete idle
state. -/
theorem poll_loop_unchanged_row_never_sleeps_witness :
    cursor_moved_iter sampleReader idleState = (idleState, []) ∧
    LoopEffect.sleepBriefly ∉ (cursor_moved_iter sampleReader idleState).2 ∧
    LoopEffect.yieldCPU ∉ (cursor_moved_iter sampleReader idleState).2 :=
  poll_loop_unchanged_row_never_sleeps sampleReader idleState (by decide)

/-! ## C3: the temporary Enter binding is never uninstalled -/

/-- **C3** (code bug): every call to `input` appends one more Enter binding
to the registry, and firing the temporary handler leaves the registry
unchanged — the binding is never uninstalled, so repeated input requests do
accumulate stale Enter bindings, contradicting the claim. -/
theorem input_enter_binding_never_uninstalled (s : AppState)
    (prompt : String) (cb : Callback) (r : Reader) :
    enterBindingCount (input_op s prompt cb) = enterBindingCount s + 1 ∧
    (on_enter_handler r cb s).kb = s.kb := by
  constructor
  · simp [enterBindingCount, input_op, List.filter_append]
  · exact kb_on_enter r cb s

/-- A nonempty string has nonzero length. -/
theorem length_ne_zero_of_ne_empty {s : String} (h : s ≠ "") :
    ¬(s.length = 0) := by
  obtain ⟨data⟩ := s
  intro hl
  apply h
  have hd : data = [] := List.length_eq_zero.mp (by simpa using hl)
  rw [hd]

/-! ## C4: range-input parsing and graceful recovery -/

/-- **C4** (confirmed): when the captured text is `"2-5"` the range
callback parses start index 2 and end index 5 and requests exactly that
range from the reader; when it is a non-numeric string such as `"abc"` the
callback reports the invalid-input message on the mini buffer, restores
focus to the tree, and leaves the application in Normal mode. -/
theorem range_callback_parse_and_recover (r : Reader) (s : AppState)
    (nid : Nat) (n : NodeData) (hn : s.tree.nodes[nid]? = some n) :
    (s.mini_buffer_text = "2-5" →
      parseRange "2-5" = .ok (2, 5) ∧
      (r.getValuesRange n.path 2 5 ≠ "" →
        (on_enter_handler r (.valuesInRange nid) s).values_text =
          r.getValuesRange n.path 2 5 ∧
        (on_enter_handler r (.valuesInRange nid) s).flag_values_visible =
          true)) ∧
    (s.mini_buffer_text = "abc" →
      (on_enter_handler r (.valuesInRange nid) s).mini_buffer_text =
        "Invalid input! Input must be a integers separated by -, not (abc)" ∧
      (on_enter_handler r (.valuesInRange nid) s).focus = .treeContent ∧
      (on_enter_handler r (.valuesInRange nid) s).flag_normal_mode = true ∧
      (on_enter_handler r (.valuesInRange nid) s).flag_jump_mode = false ∧
      (on_enter_handler r (.valuesInRange nid) s).flag_dataset_mode = false ∧
      (on_enter_handler r (.valuesInRange nid) s).flag_window_mode = false) := by
  constructor
  · intro hmini
    have hpr : parseRange "2-5" = .ok (2, 5) := by rfl
    refine ⟨hpr, ?_⟩
    intro hne
    have hlen : ¬((r.getValuesRange n.path 2 5).length = 0) :=
      length_ne_zero_of_ne_empty hne
    unfold on_enter_handler run_callback
    simp [hmini, hpr, hn, default_focus, return_to_normal_mode, hlen]
  · intro hmini
    have hpr : parseRange "abc" = .error .valueError := by rfl
    unfold on_enter_handler run_callback
    simp [hmini, hpr, appPrint, default_focus, return_to_normal_mode]

/-- Witness: `range_callback_parse_and_recover` evaluated on concrete
captured inputs `"2-5"` and `"abc"`. -/
theorem range_callback_parse_and_recover_witness :
    (on_enter_handler sampleReader (.valuesInRange 2) inputStateA).values_text
      = "2 3 4" ∧
    (on_enter_handler sampleReader (.valuesInRange 2) inputStateB).mini_buffer_text
      = "Invalid input! Input must be a integers separated by -, not (abc)" ∧
    (on_enter_handler sampleReader (.valuesInRange 2) inputStateB).focus
      = .treeContent ∧
    (on_enter_handler sampleReader (.valuesInRange 2) inputStateB).flag_normal_mode
      = true := by
  refine ⟨?_, ?_, ?_, ?_⟩
  · exact ((((range_callback_parse_and_recover sampleReader inputStateA 2
      betaNode (by decide)).1 rfl).2 (by decide)).1).trans rfl
  · exact ((range_callback_parse_and_recover sampleReader inputStateB 2
      betaNode (by decide)).2 rfl).1
  · exact ((range_callback_parse_and_recover sampleReader inputStateB 2
      betaNode (by decide)).2 rfl).2.1
  · exact ((range_callback_parse_and_recover sampleReader inputStateB 2
      betaNode (by decide)).2 rfl).2.2.1

/-! ## C10: empty value text returns early with no effect -/

/-- **C10** (confirmed): in both show-values handlers, an empty value
string returns early — the values pane, its title, the visibility flag and
all four mode flags are left unchanged (for `show_values` the whole state
is unchanged); only a non-empty value string populates the pane, sets the
flag, and restores Normal mode. -/
theorem empty_value_text_early_return (r : Reader) (s s2 : AppState)
    (nid : Nat) (n : NodeData) (a b : Int)
    (hnode : get_current_node s.tree (currentRow s) = some (nid, n))
    (hds : n.isDataset = true)
    (hn2 : s2.tree.nodes[nid]? = some n)
    (hparse : parseRange (s2.user_input.getD "") = .ok (a, b)) :
    ((r.getValues n.path = "" → show_values r s = s) ∧
     (r.getValues n.path ≠ "" →
       (show_values r s).values_text = r.getValues n.path ∧
       (show_values r s).value_title = "Values: " ++ n.path ∧
       (show_values r s).flag_values_visible = true ∧
       (show_values r s).flag_normal_mode = true ∧
       (show_values r s).flag_jump_mode = false ∧
       (show_values r s).flag_dataset_mode = false ∧
       (show_values r s).flag_window_mode = false)) ∧
    ((r.getValuesRange n.path a b = "" →
       (run_callback r (.valuesInRange nid) s2).values_text = s2.values_text ∧
       (run_callback r (.valuesInRange nid) s2).value_title = s2.value_title ∧
       (run_callback r (.valuesInRange nid) s2).flag_values_visible =
         s2.flag_values_visible ∧
       (run_callback r (.valuesInRange nid) s2).flag_normal_mode =
         s2.flag_normal_mode ∧
       (run_callback r (.valuesInRange nid) s2).flag_jump_mode =
         s2.flag_jump_mode ∧
       (run_callback r (.valuesInRange nid) s2).flag_dataset_mode =
         s2.flag_dataset_mode ∧
       (run_callback r (.valuesInRange nid) s2).flag_window_mode =
         s2.flag_window_mode) ∧
     (r.getValuesRange n.path a b ≠ "" →
       (run_callback r (.valuesInRange nid) s2).values_text =
         r.getValuesRange n.path a b ∧
       (run_callback r (.valuesInRange nid) s2).flag_values_visible = true ∧
       (run_callback r (.valuesInRange nid) s2).flag_normal_mode = true)) := by
  refine ⟨⟨?_, ?_⟩, ⟨?_, ?_⟩⟩
  · intro hemp
    unfold show_values
    simp [hnode, hds, hemp]
  · intro hne
    have hlen : ¬((r.getValues n.path).length = 0) :=
      length_ne_zero_of_ne_empty hne
    unfold show_values
    simp [hnode, hds, hlen, return_to_normal_mode]
  · intro hemp
    unfold run_callback
    simp [hparse, hn2, default_focus, hemp]
  · intro hne
    have hlen : ¬((r.getValuesRange n.path a b).length = 0) :=
      length_ne_zero_of_ne_empty hne
    unfold run_callback
    simp [hparse, hn2, default_focus, hlen, return_to_normal_mode]

/-- Witness: `empty_value_text_early_return` evaluated with an
empty-valued reader and with the non-empty sample reader, on the concrete
dataset-under-cursor state. -/
theorem empty_value_text_early_return_witness :
    show_values emptyReader dsState = dsState ∧
    (show_values sampleReader dsState).values_text = "0 1 2" ∧
    (run_callback emptyReader (.valuesInRange 2) dsState2).values_text =
      dsState2.values_text ∧
    (run_callback sampleReader (.valuesInRange 2) dsState2).values_text =
      "2 3 4" := by
  refine ⟨?_, ?_, ?_, ?_⟩
  · exact (empty_value_text_early_return emptyReader dsState dsState2 2
      betaNode 2 5 (by decide) (by decide) (by decide) (by rfl)).1.1 rfl
  · exact (((empty_value_text_early_return sampleReader dsState dsState2 2
      betaNode 2 5 (by decide) (by decide) (by decide) (by rfl)).1.2
      (by decide)).1).trans rfl
  · exact ((empty_value_text_early_return emptyReader dsState dsState2 2
      betaNode 2 5 (by decide) (by decide) (by decide) (by rfl)).2.1
      rfl).1
  · exact (((empty_value_text_early_return sampleReader dsState dsState2 2
      betaNode 2 5 (by decide) (by decide) (by decide) (by rfl)).2.2
      (by decide)).1).trans rfl

/-! ## C2: Enter toggles the container under the cursor -/

theorem dispatch_enter_tree_focus {s : AppState} (r : Reader)
    (hkb : kbInv s) (hfoc : s.focus = .treeContent) :
    dispatch r s "enter" = expand_collapse_node r s := by
  obtain ⟨rest, hshape, hrest⟩ := hkb
  unfold dispatch
  rw [hshape]
  rw [List.filter_append]
  have h1 : initKB.filter
      (fun e => decide (e.key = "enter" ∧ evalFilter s e.filter = true)) =
      [⟨"enter", .always, .expandCollapse⟩] := by
    simp [initKB, evalFilter]
  have h2 : rest.filter
      (fun e => decide (e.key = "enter" ∧ evalFilter s e.filter = true)) =
      [] := by
    rw [List.filter_eq_nil_iff]
    intro e he
    obtain ⟨-, hf, -⟩ := hrest e he
    simp [hf, evalFilter, hfoc]
  rw [h1, h2]
  simp [runHandler]

/-- **C2** (corrected): pressing Enter in Normal mode with the tree focused
and the cursor on a Container row whose node has children toggles that
node — `close_node` if it is expanded, `update_tree_text` otherwise — then
repositions the cursor to the pre-edit offset; none of the four mode flags
changes. -/
theorem enter_toggles_container_with_children (r : Reader) (s : AppState)
    (nid : Nat) (n : NodeData)
    (hkb : kbInv s) (hfoc : s.focus = .treeContent)
    (_hnorm : s.flag_normal_mode = true)
    (hnode : get_current_node s.tree (currentRow s) = some (nid, n))
    (hds : n.isDataset = false) (hch : n.hasChildren = true) :
    (dispatch r s "enter").tree =
      (if n.isExpanded then close_node s.tree (currentRow s)
       else update_tree_text r s.tree (currentRow s)) ∧
    (dispatch r s "enter").doc_cursor = s.doc_cursor ∧
    (dispatch r s "enter").flag_normal_mode = s.flag_normal_mode ∧
    (dispatch r s "enter").flag_jump_mode = s.flag_jump_mode ∧
    (dispatch r s "enter").flag_dataset_mode = s.flag_dataset_mode ∧
    (dispatch r s "enter").flag_window_mode = s.flag_window_mode := by
  rw [dispatch_enter_tree_focus r hkb hfoc]
  unfold expand_collapse_node
  simp [hnode, hds, hch, set_cursor_position]

/-- Witness: `enter_toggles_container_with_children` at the freshly
initialised state over the sample root (a collapsed container with
children): Enter expands it. -/
theorem enter_toggles_container_with_children_witness :
    (dispatch sampleReader (initState sampleRoot) "enter").tree =
      (if sampleRoot.isExpanded then
        close_node (initState sampleRoot).tree
          (currentRow (initState sampleRoot))
       else update_tree_text sampleReader (initState sampleRoot).tree
          (currentRow (initState sampleRoot))) ∧
    (dispatch sampleReader (initState sampleRoot) "enter").doc_cursor =
      (initState sampleRoot).doc_cursor ∧
    (dispatch sampleReader (initState sampleRoot) "enter").flag_normal_mode =
      (initState sampleRoot).flag_normal_mode ∧
    (dispatch sampleReader (initState sampleRoot) "enter").flag_jump_mode =
      (initState sampleRoot).flag_jump_mode ∧
    (dispatch sampleReader (initState sampleRoot) "enter").flag_dataset_mode =
      (initState sampleRoot).flag_dataset_mode ∧
    (dispatch sampleReader (initState sampleRoot) "enter").flag_window_mode =
      (initState sampleRoot).flag_window_mode :=
  enter_toggles_container_with_children sampleReader (initState sampleRoot)
    0 sampleRoot (kbInv_initState sampleRoot) (by decide) (by decide)
    (by decide) (by decide) (by decide)

/-- Counterexample to C2 as stated: with the cursor on a childless
(collapsed) Container row, Enter neither expands the node nor changes the
tree at all — the handler returns early with only a message — so "otherwise
it is expanded" fails. -/
theorem enter_childless_container_not_toggled :
    cxRoot.isDataset = false ∧
    cxRoot.isExpanded = false ∧
    get_current_node (initState cxRoot).tree (currentRow (initState cxRoot)) =
      some (0, cxRoot) ∧
    (dispatch sampleReader (initState cxRoot) "enter").tree =
      (initState cxRoot).tree ∧
    (get_current_node (dispatch sampleReader (initState cxRoot) "enter").tree
      0).map (fun p => p.2.isExpanded) = some false ∧
    (dispatch sampleReader (initState cxRoot) "enter").mini_buffer_text =
      "/g has no children" := by
  decide

/-! ## C6: the poll loop's IndexError recovery -/

/-- **C6** (corrected): when the poll-loop body's node lookup for the
current row fails (cursor past the end), the loop catches the error rather
than propagating it, clears the metadata and attribute panes, and
repositions the cursor — but to offset `tree.length` (the end of the
buffer), not to the start of the last valid row. -/
theorem poll_loop_lookup_failure_recovers (r : Reader) (s : AppState)
    (hrow : ¬(some (currentRow s) = s.prev_row))
    (hfail : get_current_node s.tree (currentRow s) = none) :
    (cursor_moved_iter r s).1.doc_cursor = s.tree.length ∧
    (cursor_moved_iter r s).1.doc_text = bufferText s.tree ∧
    (cursor_moved_iter r s).1.metadata_text = "" ∧
    (cursor_moved_iter r s).1.attributes_text = "" ∧
    (cursor_moved_iter r s).2 = [.clampCursorAndClearPanes, .invalidate] := by
  unfold cursor_moved_iter
  simp [hrow, hfail, set_cursor_position]

/-- Witness: `poll_loop_lookup_failure_recovers` at the concrete race
state. -/
theorem poll_loop_lookup_failure_recovers_witness :
    (cursor_moved_iter sampleReader pollCxState).1.doc_cursor =
      pollCxState.tree.length ∧
    (cursor_moved_iter sampleReader pollCxState).1.doc_text =
      bufferText pollCxState.tree ∧
    (cursor_moved_iter sampleReader pollCxState).1.metadata_text = "" ∧
    (cursor_moved_iter sampleReader pollCxState).1.attributes_text = "" ∧
    (cursor_moved_iter sampleReader pollCxState).2 =
      [.clampCursorAndClearPanes, .invalidate] :=
  poll_loop_lookup_failure_recovers sampleReader pollCxState (by decide)
    (by decide)

/-- Counterexample to C6 as stated: at the concrete race state the
recovery puts the cursor at offset `tree.length` (23, the end of the
buffer), which is not the start of the last valid row (offset 17). -/
theorem poll_loop_recovery_not_last_row_start :
    get_current_node pollCxState.tree (currentRow pollCxState) = none ∧
    (cursor_moved_iter sampleReader pollCxState).1.doc_cursor =
      pollCxState.tree.length ∧
    lastRowStart pollCxState.tree = 17 ∧
    (cursor_moved_iter sampleReader pollCxState).1.doc_cursor ≠
      lastRowStart pollCxState.tree := by
  decide

/-! ## C9: the move-down clamp arithmetic over reachable tree states -/

theorem lineTotal_append (a b : List String) :
    lineTotal (a ++ b) = lineTotal a + lineTotal b := by
  simp [lineTotal]

theorem lineTotal_pos {ls : List String} (h : ls ≠ []) : 1 ≤ lineTotal ls := by
  cases ls with
  | nil => exact absurd rfl h
  | cons l ls =>
      simp only [lineTotal, List.map_cons, List.sum_cons]
      omega

theorem filterMap_lineOf_congr {ns ns' : List NodeData} {l : List Nat}
    (h : ∀ i ∈ l, lineOf ns' i = lineOf ns i) :
    l.filterMap (lineOf ns') = l.filterMap (lineOf ns) :=
  List.filterMap_congr h

theorem length_filterMap_lineOf {ns : List NodeData} {l : List Nat}
    (h : ∀ i ∈ l, i < ns.length) :
    (l.filterMap (lineOf ns)).length = l.length := by
  induction l with
  | nil => rfl
  | cons i l ih =>
      have hi : i < ns.length := h i (List.mem_cons_self i l)
      have hsome : lineOf ns i = some (renderLine ns[i]) := by
        simp [lineOf, List.getElem?_eq_getElem hi]
      simp [List.filterMap_cons, hsome,
        ih (fun j hj => h j (List.mem_cons_of_mem _ hj))]

theorem bufferLines_ne_nil {t : TreeState} (hval : validIds t)
    (hne : t.lineIndex ≠ []) : bufferLines t ≠ [] := by
  intro h
  apply hne
  have hl := @length_filterMap_lineOf t.nodes t.lineIndex hval
  rw [show t.lineIndex.filterMap (lineOf t.nodes) = bufferLines t from rfl,
    h] at hl
  exact List.eq_nil_of_length_eq_zero hl.symm

theorem lineOf_set {ns : List NodeData} {nid : Nat} {n n' : NodeData}
    (hn : ns[nid]? = some n) (hr : renderLine n' = renderLine n) (i : Nat) :
    lineOf (ns.set nid n') i = lineOf ns i := by
  rcases eq_or_ne i nid with rfl | hne
  · obtain ⟨hlt, -⟩ := List.getElem?_eq_some.mp hn
    simp [lineOf, List.getElem?_set_self hlt, hn, hr]
  · simp [lineOf, List.getElem?_set_ne (Ne.symm hne)]

theorem lineOf_set_append {ns extra : List NodeData} {nid : Nat}
    {n n' : NodeData} (hn : ns[nid]? = some n)
    (hr : renderLine n' = renderLine n) {i : Nat} (hi : i < ns.length) :
    lineOf ((ns ++ extra).set nid n') i = lineOf ns i := by
  obtain ⟨hnlt, -⟩ := List.getElem?_eq_some.mp hn
  rcases eq_or_ne i nid with rfl | hne
  · have hlt : i < (ns ++ extra).length := by
      simp only [List.length_append]
      omega
    simp [lineOf, List.getElem?_set_self hlt, hn, hr]
  · rw [lineOf, List.getElem?_set_ne (Ne.symm hne),
      List.getElem?_append_left hi, lineOf]

theorem treeInv_splice {t : TreeState} (hval : validIds t)
    (hch : validChildren t) (hne : t.lineIndex ≠ [])
    (hlen : t.length + 1 = lineTotal (bufferLines t))
    {row nid : Nat} {n : NodeData} (hrow : t.lineIndex[row]? = some nid)
    (hnode : t.nodes[nid]? = some n)
    (cids : List Nat) (extra : List NodeData)
    (hcb : ∀ c ∈ cids, c < t.nodes.length + extra.length)
    (hex : ∀ m ∈ extra, m.children = none) :
    TreeInv
      { nodes := (t.nodes ++ extra).set nid
          { n with isExpanded := true, children := some cids },
        lineIndex :=
          t.lineIndex.take (row + 1) ++ cids ++ t.lineIndex.drop (row + 1),
        length := t.length + lineTotal (cids.filterMap
          (lineOf ((t.nodes ++ extra).set nid
            { n with isExpanded := true, children := some cids }))) } := by
  obtain ⟨hrowlt, -⟩ := List.getElem?_eq_some.mp hrow
  have hNlen : (((t.nodes ++ extra).set nid
      { n with isExpanded := true, children := some cids })).length =
      t.nodes.length + extra.length := by
    simp
  have hrender : renderLine
      { n with isExpanded := true, children := some cids } = renderLine n :=
    rfl
  have hlineOf : ∀ i, i < t.nodes.length →
      lineOf ((t.nodes ++ extra).set nid
        { n with isExpanded := true, children := some cids }) i =
      lineOf t.nodes i :=
    fun i hi => lineOf_set_append hnode hrender hi
  refine ⟨?_, ?_, ?_, ?_⟩
  · intro i hi
    rw [hNlen]
    rcases List.mem_append.mp hi with hi | hi
    · rcases List.mem_append.mp hi with hi | hi
      · have := hval i (List.take_subset _ _ hi)
        omega
      · exact hcb i hi
    · have := hval i (List.drop_subset _ _ hi)
      omega
  · intro m hm
    rcases List.mem_or_eq_of_mem_set hm with hm | rfl
    · rcases List.mem_append.mp hm with hm | hm
      · intro c hc
        rw [hNlen]
        have := hch m hm c hc
        omega
      · intro c hc
        rw [hex m hm] at hc
        simp at hc
    · intro c hc
      simp only [Option.getD_some] at hc
      rw [hNlen]
      exact hcb c hc
  · have h1 : t.lineIndex.take (row + 1) ≠ [] := by
      rw [Ne, List.take_eq_nil_iff]
      push_neg
      exact ⟨Nat.succ_ne_zero row, hne⟩
    intro hcon
    rcases List.append_eq_nil.mp (List.append_eq_nil.mp hcon).1 with ⟨h2, -⟩
    exact h1 h2
  · have htk : ∀ i ∈ t.lineIndex.take (row + 1),
        lineOf ((t.nodes ++ extra).set nid
          { n with isExpanded := true, children := some cids }) i =
        lineOf t.nodes i :=
      fun i hi => hlineOf i (hval i (List.take_subset _ _ hi))
    have hdp : ∀ i ∈ t.lineIndex.drop (row + 1),
        lineOf ((t.nodes ++ extra).set nid
          { n with isExpanded := true, children := some cids }) i =
        lineOf t.nodes i :=
      fun i hi => hlineOf i (hval i (List.drop_subset _ _ hi))
    have hsplit : bufferLines t =
        (t.lineIndex.take (row + 1)).filterMap (lineOf t.nodes) ++
        (t.lineIndex.drop (row + 1)).filterMap (lineOf t.nodes) := by
      rw [bufferLines, ← List.filterMap_append, List.take_append_drop]
    simp only [bufferLines, List.filterMap_append,
      filterMap_lineOf_congr htk, filterMap_lineOf_congr hdp,
      lineTotal_append]
    rw [hsplit, lineTotal_append] at hlen
    omega

theorem treeInv_update (r : Reader) {t : TreeState} (hinv : TreeInv t)
    (row : Nat) : TreeInv (update_tree_text r t row) := by
  obtain ⟨hval, hch, hne, hlen⟩ := hinv
  unfold update_tree_text
  split
  · exact ⟨hval, hch, hne, hlen⟩
  next nid hrow =>
    split
    · exact ⟨hval, hch, hne, hlen⟩
    next n hnode =>
      split
      · exact ⟨hval, hch, hne, hlen⟩
      next hguard =>
        dsimp only
        rcases hcn : n.children with _ | cids
        · simp only [expandedChildren, hcn]
          refine treeInv_splice hval hch hne hlen hrow hnode _ _ ?_ ?_
          · intro c hc
            obtain ⟨j, hj, rfl⟩ := List.mem_map.mp hc
            have := List.mem_range.mp hj
            simp only [List.length_map]
            omega
          · intro m hm
            obtain ⟨c, -, rfl⟩ := List.mem_map.mp hm
            rfl
        · simp only [expandedChildren, hcn]
          refine treeInv_splice hval hch hne hlen hrow hnode _ _ ?_ ?_
          · intro c hc
            have := hch n (List.getElem?_mem hnode) c (by rw [hcn]; exact hc)
            simpa using this
          · intro m hm
            simp at hm

theorem treeInv_close {t : TreeState} (hinv : TreeInv t) (row : Nat) :
    TreeInv (close_node t row) := by
  obtain ⟨hval, hch, hne, hlen⟩ := hinv
  unfold close_node
  split
  · exact ⟨hval, hch, hne, hlen⟩
  next nid hrow =>
    split
    · exact ⟨hval, hch, hne, hlen⟩
    next n hnode =>
      split
      · exact ⟨hval, hch, hne, hlen⟩
      next hexp =>
        dsimp only
        obtain ⟨hrowlt, -⟩ := List.getElem?_eq_some.mp hrow
        have hrender : renderLine { n with isExpanded := false } =
            renderLine n := rfl
        have hlineOf : ∀ i,
            lineOf (t.nodes.set nid { n with isExpanded := false }) i =
            lineOf t.nodes i :=
          lineOf_set hnode hrender
        have htkmem : ∀ i ∈ t.lineIndex.take (row + 1), i ∈ t.lineIndex :=
          fun i hi => List.take_subset _ _ hi
        have hkpmem : ∀ i ∈ (t.lineIndex.drop (row + 1)).dropWhile
            (fun i => decide (n.depth < nodeDepth t i)), i ∈ t.lineIndex :=
          fun i hi => List.drop_subset _ _
            ((List.dropWhile_sublist _).subset hi)
        refine ⟨?_, ?_, ?_, ?_⟩
        · intro i hi
          simp only [List.length_set]
          rcases List.mem_append.mp hi with hi | hi
          · exact hval i (htkmem i hi)
          · exact hval i (hkpmem i hi)
        · intro m hm
          rcases List.mem_or_eq_of_mem_set hm with hm | rfl
          · intro c hc
            simp only [List.length_set]
            exact hch m hm c hc
          · intro c hc
            simp only [List.length_set]
            exact hch n (List.getElem?_mem hnode) c hc
        · have h1 : t.lineIndex.take (row + 1) ≠ [] := by
            rw [Ne, List.take_eq_nil_iff]
            push_neg
            exact ⟨Nat.succ_ne_zero row, hne⟩
          intro hcon
          exact h1 (List.append_eq_nil.mp hcon).1
        · have hsplit : bufferLines t =
              (t.lineIndex.take (row + 1)).filterMap (lineOf t.nodes) ++
              ((t.lineIndex.drop (row + 1)).takeWhile
                (fun i => decide (n.depth < nodeDepth t i))).filterMap
                (lineOf t.nodes) ++
              ((t.lineIndex.drop (row + 1)).dropWhile
                (fun i => decide (n.depth < nodeDepth t i))).filterMap
                (lineOf t.nodes) := by
            rw [bufferLines, ← List.filterMap_append, ← List.filterMap_append,
              List.append_assoc, List.takeWhile_append_dropWhile,
              List.take_append_drop]
          have hA1 : 1 ≤ lineTotal
              ((t.lineIndex.take (row + 1)).filterMap (lineOf t.nodes)) := by
            apply lineTotal_pos
            intro hcon
            have hlf := @length_filterMap_lineOf t.nodes
              (t.lineIndex.take (row + 1))
              (fun i hi => hval i (htkmem i hi))
            rw [hcon] at hlf
            have : t.lineIndex.take (row + 1) = [] :=
              List.eq_nil_of_length_eq_zero hlf.symm
            rw [List.take_eq_nil_iff] at this
            rcases this with h | h
            · exact Nat.succ_ne_zero row h
            · exact hne h
          have hcongr : ∀ l : List Nat,
              l.filterMap (lineOf (t.nodes.set nid
                { n with isExpanded := false })) =
              l.filterMap (lineOf t.nodes) :=
            fun l => filterMap_lineOf_congr (fun i _ => hlineOf i)
          simp only [bufferLines, List.filterMap_append, hcongr,
            lineTotal_append]
          rw [hsplit] at hlen
          rw [lineTotal_append, lineTotal_append] at hlen
          have key : ∀ L A TW DW : Nat, L + 1 = A + TW + DW → 1 ≤ A →
              L - TW + 1 = A + DW := by
            intro L A TW DW h1 h2
            omega
          exact key _ _ _ _ hlen hA1

theorem treeInv_init (root : NodeData) (h : root.children = none) :
    TreeInv (initTree root) := by
  refine ⟨?_, ?_, ?_, ?_⟩
  · intro i hi
    simp [initTree] at hi ⊢
    omega
  · intro m hm
    simp only [initTree] at hm
    simp at hm
    subst hm
    intro c hc
    rw [h] at hc
    simp at hc
  · simp [initTree]
  · simp [initTree, bufferLines, lineOf, lineTotal]

theorem reachable_inv {r : Reader} {t : TreeState} (h : Reachable r t) :
    TreeInv t := by
  induction h with
  | init root hr => exact treeInv_init root hr
  | expand row _ ih => exact treeInv_update r ih row
  | collapse row _ ih => exact treeInv_close ih row

theorem length_joinLines : ∀ {ls : List String}, ls ≠ [] →
    (joinLines ls).length + 1 = lineTotal ls
  | [l], _ => by
      simp [joinLines, lineTotal]
  | l :: l' :: ls, _ => by
      have ih := @length_joinLines (l' :: ls) (by simp)
      simp only [joinLines, lineTotal, List.map_cons, List.sum_cons,
        String.length_append, show ("\n").length = 1 from rfl] at ih ⊢
      omega

theorem totalLength_eq_length {t : TreeState} (hinv : TreeInv t) :
    totalLength t = t.length := by
  obtain ⟨hval, -, hne, hlen⟩ := hinv
  have hbne : bufferLines t ≠ [] := bufferLines_ne_nil hval hne
  have hj := length_joinLines hbne
  unfold totalLength bufferText
  omega

theorem clamp_in_range_of_inv {t : TreeState} (hinv : TreeInv t) :
    0 ≤ move_down_clamp t ∧ move_down_clamp t ≤ (totalLength t : Int) := by
  have htl := totalLength_eq_length hinv
  obtain ⟨hval, -, hne, hlen⟩ := hinv
  have hbne : bufferLines t ≠ [] := bufferLines_ne_nil hval hne
  have hlenpos : 0 < (bufferLines t).length := List.length_pos.mpr hbne
  have hidx : (bufferLines t).length - 1 < (bufferLines t).length := by
    omega
  have hlast : (tree_text_split t).getD (treeHeight t - 1) "" =
      (bufferLines t)[(bufferLines t).length - 1] := by
    simp [tree_text_split, treeHeight, List.getD_eq_getElem?_getD,
      List.getElem?_eq_getElem hidx]
  have hmem : (bufferLines t)[(bufferLines t).length - 1] ∈ bufferLines t :=
    List.getElem_mem hidx
  have hlb : (bufferLines t)[(bufferLines t).length - 1].length + 1 ≤
      lineTotal (bufferLines t) := by
    apply List.single_le_sum (fun x _ => Nat.zero_le x)
    exact List.mem_map_of_mem _ hmem
  unfold move_down_clamp
  rw [hlast, htl]
  constructor
  · omega
  · omega

/-- **C9** (corrected): the clamp offset `move_down_ten` computes —
`tree.length` minus the last display line's length — lies inside
`[0, totalLength()]` in every reachable tree state: the last line can never
be longer than the total length, because the cached `length` stays equal to
the buffer's character count across every expand/collapse. -/
theorem move_down_clamp_always_in_range (r : Reader) (t : TreeState)
    (h : Reachable r t) :
    0 ≤ move_down_clamp t ∧ move_down_clamp t ≤ (totalLength t : Int) :=
  clamp_in_range_of_inv (reachable_inv h)

/-- Counterexample to C9 as stated: there is no reachable tree state — in
particular none produced by a large collapse — whose clamp offset is
negative or exceeds `totalLength()`. -/
theorem no_reachable_out_of_range_clamp :
    ¬∃ (r : Reader) (t : TreeState), Reachable r t ∧
      (move_down_clamp t < 0 ∨ (totalLength t : Int) < move_down_clamp t) := by
  rintro ⟨r, t, hreach, hbad⟩
  have h := clamp_in_range_of_inv (reachable_inv hreach)
  rcases hbad with hb | hb
  · omega
  · omega

/-- Witness: `move_down_clamp_always_in_range` at the concrete state
reached by expanding the sample root and collapsing it again. -/
theorem move_down_clamp_always_in_range_witness :
    0 ≤ move_down_clamp (close_node sampleTree 0) ∧
    move_down_clamp (close_node sampleTree 0) ≤
      (totalLength (close_node sampleTree 0) : Int) :=
  move_down_clamp_always_in_range sampleReader _
    (Reachable.collapse 0 (Reachable.expand 0 (Reachable.init sampleRoot rfl)))

end H5Forest
